import Mathlib

/-!
# Shallow embedding of the order/inventory system in `src/app.py`

This file embeds the data model and the operations of the apparel-order
tracking application: the order store and its status state machine
(`DataStore.upsert_row`, `DataStore.update_status`), the inventory catalog and
movement ledger (`InventoryStore`, `InventoryMovementStore`), the transition
hook (`adjust_inventory_on_transition`), item-list parsing
(`parse_items_from_row`), and the revenue computation of the statistics page
(`stats`).  Python `DataFrame` rows become Lean structures; the frames become
lists; numeric cells become `Int` (with `Option` for missing/NaN cells);
timestamps become `Nat`.  Definitions keep the source's names.
-/

/-- Python's `str.strip()` with no argument: remove leading and trailing
whitespace.  (Defined on the character list so that it evaluates by kernel
reduction.) -/
def String.strip (s : String) : String :=
  ⟨((s.data.dropWhile Char.isWhitespace).reverse.dropWhile
      Char.isWhitespace).reverse⟩

/-! ## Status constants (src/app.py lines 85-89) -/

def STATUS_PROCESSING : String := "قيد المعالجة"

def STATUS_READY : String := "قيد التجهيز"

def STATUS_SHIPPING : String := "قيد التوصيل"

def STATUS_DELIVERED : String := "تم التوصيل"

def STATUS_RETURNED : String := "راجع"

/-! ## Movements (ledger rows of `InventoryMovementStore`) -/

/-- One row of `inventory_movements.xlsx`: MoveID, DateTime (as a `Nat`
timestamp), Product Code, Product Name, Delta, Movement Type, Ref, Notes. -/
structure Movement where
  moveId : Nat
  time : Nat
  productCode : String
  productName : String
  delta : Int
  movementType : String
  ref : String
  notes : String
deriving Repr, DecidableEq

/-- One row of `inventory.xlsx` (`InventoryStore.COLS`). -/
structure Sku where
  productCode : String
  productName : String
  skuType : String
  quantity : Int
  fabricMeters : Int
  metersPerUnit : Int
  fabricMeterPrice : Int
  sewingCost : Int
  accessoriesCost : Int
  extraCosts : Int
  salePrice : Int
deriving Repr, DecidableEq

/-- The inventory catalog plus its movement ledger (`InventoryStore` holds a
`movements : InventoryMovementStore` member). -/
structure InventoryState where
  items : List Sku
  movements : List Movement
deriving Repr, DecidableEq

/-- `InventoryMovementStore._next_id`: max existing MoveID + 1 (1 when the
ledger is empty). -/
def next_move_id (ms : List Movement) : Nat :=
  (ms.foldl (fun a m => max a m.moveId) 0) + 1

/-- `InventoryMovementStore.add`: append one row with the next MoveID; every
string field is stripped. -/
def movements_add (ms : List Movement) (product_code product_name : String)
    (delta : Int) (movement_type ref notes : String) (time : Nat) : List Movement :=
  ms ++ [{ moveId := next_move_id ms, time := time,
           productCode := product_code.strip, productName := product_name.strip,
           delta := delta, movementType := movement_type.strip,
           ref := ref.strip, notes := notes.strip }]

/-! ## InventoryStore lookups (src/app.py lines 4056-4114) -/

/-- `InventoryStore.get_by_code`: first row whose Product Code equals the
stripped argument. -/
def get_by_code (inv : InventoryState) (code : String) : Option Sku :=
  inv.items.find? (fun s => s.productCode == code.strip)

/-- `InventoryStore.find_index_by_code`: index of the first row whose Product
Code equals the stripped argument. -/
def find_index_by_code (inv : InventoryState) (code : String) : Option Nat :=
  inv.items.findIdx? (fun s => s.productCode == code.strip)

/-- `InventoryStore.find_index_by_name`: index of the first row whose Product
Name equals the stripped argument. -/
def find_index_by_name (inv : InventoryState) (name : String) : Option Nat :=
  inv.items.findIdx? (fun s => s.productName == name.strip)

/-- `InventoryStore.resolve_index`: prefer an exact code match; otherwise
resolve by name only when exactly one row bears that name; `none` on the empty
string, on an unknown reference, and on an ambiguous name. -/
def resolve_index (inv : InventoryState) (code_or_name : String) : Option Nat :=
  let v := code_or_name.strip
  if v = "" then none
  else
    match find_index_by_code inv v with
    | some i => some i
    | none =>
        if (inv.items.filter (fun s => s.productName == v)).length = 1 then
          find_index_by_name inv v
        else none

/-- Modelled from the spec: `InventoryStore.adjust_quantity` is invoked
throughout src/app.py (the transition hook, the production log, the manual
inventory routes) but its definition is absent from the source file.  Spec
§4.2: it resolves the SKU by code-or-name, fails with
NotFound/AmbiguousReference **before any write** when resolution fails, and
otherwise appends one Movement to the ledger and adds `delta` to the resolved
SKU's quantityOnHand, returning the new quantity and the resolved name.
`none` models the failure return. -/
def adjust_quantity (inv : InventoryState) (code_or_name : String) (delta : Int)
    (movement_type ref notes : String) (time : Nat) :
    Option (InventoryState × Int × String) :=
  match resolve_index inv code_or_name with
  | none => none
  | some i =>
      match inv.items[i]? with
      | none => none
      | some sku =>
          let newQty := sku.quantity + delta
          let items' := inv.items.set i { sku with quantity := newQty }
          let ms' := movements_add inv.movements sku.productCode sku.productName
            delta movement_type ref notes time
          some ({ items := items', movements := ms' }, newQty, sku.productName)

/-- The inventory state an `inventory.adjust_quantity(...)` call leaves behind
when the caller ignores the returned pair (as the transition hook does): the
written state on success, the unchanged state on failure. -/
def apply_adjust (inv : InventoryState) (code_or_name : String) (delta : Int)
    (movement_type ref notes : String) (time : Nat) : InventoryState :=
  match adjust_quantity inv code_or_name delta movement_type ref notes time with
  | none => inv
  | some (inv', _, _) => inv'

/-! ## Order rows and item-list parsing -/

/-- Outcome of reading an item entry's `qty` field in Python
(`int(float(it.get('qty', 1) or 1))` guarded by `try/except`):
`missing` — no `qty` key (default 1); `falsy` — a falsy value (`0`, `''`,
`None`), replaced by 1 through `or 1`; `unparsable` — `float(...)` raises;
`num v` — a parsable truthy value whose `int(float(...))` is `v`. -/
inductive QtyField where
  | missing
  | falsy
  | unparsable
  | num (v : Int)
deriving Repr, DecidableEq

/-- The quantity `parse_items_from_row` derives from a `qty` field:
the `try/except` default and the `or 1` give 1, and `if qty<=0: qty=1`
normalizes non-positive parses to 1. -/
def parseQty : QtyField → Int
  | .missing => 1
  | .falsy => 1
  | .unparsable => 1
  | .num v => if v ≤ 0 then 1 else v

/-- One element of the JSON array stored in an order's `Items` cell:
either not a dict (skipped by the parser) or a dict with `code`, `name`,
`qty` fields. -/
inductive RawEntry where
  | notDict
  | entry (code name : String) (qty : QtyField)
deriving Repr, DecidableEq

/-- A normalized order item as `parse_items_from_row` returns it. -/
structure OrderItem where
  code : String
  name : String
  qty : Int
deriving Repr, DecidableEq

/-- One row of the orders DataFrame (`BASE_COLUMNS`, src/app.py lines 91-108).
`Option` cells model missing/NaN values; `items = none` models an `Items`
cell that is absent, NaN, unparsable JSON, or not a JSON list. -/
structure OrderRow where
  txn : String
  productName : Option String
  pageName : String
  timeAndDate : Option Nat
  orderPrice : Option Int
  status : String
  statusUpdatedAt : Option Nat
  shippingAt : Option Nat
  deliveredAt : Option Nat
  returnedAt : Option Nat
  returnReason : Option String
  notes : Option String
  items : Option (List RawEntry)
deriving Repr, DecidableEq

/-- The name an entry ends up with: when the entry's own (stripped) name is
empty but a code is present, look the name up in the catalog by that code. -/
def effective_name (inv : InventoryState) (code name : String) : String :=
  if name = "" ∧ code ≠ "" then
    match get_by_code inv code with
    | some s => s.productName.strip
    | none => name
  else name

/-- The per-entry step of `parse_items_from_row`'s normalization loop:
strip code and name, normalize qty, recover an empty name from the catalog via
the code, and drop the entry when no name results. -/
def normalize_entry (inv : InventoryState) : RawEntry → Option OrderItem
  | .notDict => none
  | .entry code name qf =>
      let code := code.strip
      let name := effective_name inv code name.strip
      if name = "" then none
      else some { code := code, name := name, qty := parseQty qf }

/-- `parse_items_from_row` (src/app.py lines 4120-4164): normalize the JSON
item list when it is a non-empty list; otherwise fall back to a single
implicit item built from the row's Product Name with qty 1. -/
def parse_items_from_row (inv : InventoryState) (row : OrderRow) : List OrderItem :=
  match row.items with
  | some (e :: rest) => (e :: rest).filterMap (normalize_entry inv)
  | _ =>
      match row.productName with
      | some n => if n.strip = "" then [] else [{ code := "", name := n.strip, qty := 1 }]
      | none => []

/-- The argument the transition hook passes to `adjust_quantity`:
`it['code'] or it['name']` — the code when non-empty, else the name. -/
def itemKey (it : OrderItem) : String :=
  if it.code = "" then it.name else it.code

/-- The per-branch loop of `adjust_inventory_on_transition`: one
`adjust_quantity` call per item, with the call's return value discarded. -/
def adjust_fold (items : List OrderItem) (d : OrderItem → Int)
    (movement_type ref notes : String) (time : Nat) (inv : InventoryState) :
    InventoryState :=
  items.foldl (fun acc it => apply_adjust acc (itemKey it) (d it) movement_type ref notes time) inv

/-- `adjust_inventory_on_transition` (src/app.py lines 4251-4267): parse the
row's items once; `READY -> SHIPPING` withdraws each item's qty,
`SHIPPING -> RETURNED` adds it back, every other pair has no stock effect. -/
def adjust_inventory_on_transition (row : OrderRow) (old_status new_status : String)
    (inv : InventoryState) (time : Nat) : InventoryState :=
  let items := parse_items_from_row inv row
  if items.isEmpty then inv
  else
    let inv1 :=
      if old_status = STATUS_READY ∧ new_status = STATUS_SHIPPING then
        adjust_fold items (fun it => -it.qty) "Withdraw" row.txn "READY->SHIPPING" time inv
      else inv
    if old_status = STATUS_SHIPPING ∧ new_status = STATUS_RETURNED then
      adjust_fold items (fun it => it.qty) "Return" row.txn "SHIPPING->RETURNED" time inv1
    else inv1

/-! ## DataStore: order rows, upsert and status transitions
(src/app.py lines 378-460) -/

/-- The whole mutable state `update_status` touches: the orders DataFrame and
the global inventory (catalog + ledger) mutated through the hook. -/
structure SysState where
  store : List OrderRow
  inv : InventoryState
deriving Repr, DecidableEq

/-- `re.fullmatch(r'\d{6,}', txn)`: the whole id is digits and at least six of
them (the preceding `not txn` test is subsumed). -/
def valid_txn (t : String) : Bool :=
  t != "" && 6 ≤ t.length && t.toList.all (fun c => c.isDigit)

/-- `DataStore.upsert_row`: reject an id that is not a numeric string of ≥ 6
digits before touching the frame; default a missing Status to `STATUS_READY`;
then overwrite the row at that id, or append a new row with the stripped id. -/
def upsert_row (store : List OrderRow) (row_in : OrderRow) : Bool × List OrderRow :=
  let txn := row_in.txn.strip
  if !valid_txn txn then (false, store)
  else
    let row := if row_in.status = "" then { row_in with status := STATUS_READY } else row_in
    if store.any (fun r => r.txn == txn) then
      (true, store.map (fun r => if r.txn == txn then row else r))
    else
      (true, store ++ [{ row with txn := txn }])

/-- The stamping part of `DataStore.update_status`: set the new Status, stamp
`Status Updated At` with now, stamp the typed timestamp matching the new
status, and record a non-empty return reason on `STATUS_RETURNED`.  The
source's four independent `if new_status == ...` statements each assign one
distinct column, written here field by field. -/
def stamp_row (row : OrderRow) (new_status : String) (return_reason : Option String)
    (ts : Nat) : OrderRow :=
  { row with
    status := new_status,
    statusUpdatedAt := some ts,
    shippingAt := if new_status = STATUS_SHIPPING then some ts else row.shippingAt,
    deliveredAt := if new_status = STATUS_DELIVERED then some ts else row.deliveredAt,
    returnedAt := if new_status = STATUS_RETURNED then some ts else row.returnedAt,
    returnReason :=
      if new_status = STATUS_RETURNED then
        match return_reason with
        | some rr => if rr = "" then row.returnReason else some rr
        | none => row.returnReason
      else row.returnReason }

/-- `DataStore.update_status` (src/app.py lines 417-460): fail only when the
id is unknown; otherwise stamp the row, commit it, and synchronously run
`adjust_inventory_on_transition` on the updated row exactly once (its failures
are swallowed by `try/except`, never rolling back the status change). -/
def update_status (s : SysState) (txn new_status : String)
    (return_reason : Option String) (ts : Nat) : Bool × SysState :=
  let t := txn.strip
  match s.store.find? (fun r => r.txn == t) with
  | none => (false, s)
  | some row0 =>
      let old_status := row0.status
      let row := stamp_row row0 new_status return_reason ts
      let store' := s.store.map (fun r => if r.txn == t then row else r)
      let inv' := adjust_inventory_on_transition row old_status new_status s.inv ts
      (true, { store := store', inv := inv' })

/-! ## InventoryStore.update_item and the inventory edit route
(src/app.py lines 4069-4090 and 7093-7130) -/

/-- The keyword arguments callers pass to `InventoryStore.update_item`, one
optional value per inventory column it may set (keys that are not inventory
columns are skipped by `update_item` itself and do not appear here). -/
structure UpdateArgs where
  productName : Option String
  skuType : Option String
  quantity : Option Int
  fabricMeters : Option Int
  metersPerUnit : Option Int
  fabricMeterPrice : Option Int
  sewingCost : Option Int
  accessoriesCost : Option Int
  extraCosts : Option Int
  salePrice : Option Int
deriving Repr, DecidableEq

/-- Empty keyword-argument set. -/
def UpdateArgs.none' : UpdateArgs :=
  { productName := none, skuType := none, quantity := none, fabricMeters := none,
    metersPerUnit := none, fabricMeterPrice := none, sewingCost := none,
    accessoriesCost := none, extraCosts := none, salePrice := none }

/-- Apply one keyword-argument set to one inventory row. -/
def apply_update_args (sku : Sku) (args : UpdateArgs) : Sku :=
  { sku with
    productName := args.productName.getD sku.productName,
    skuType := args.skuType.getD sku.skuType,
    quantity := args.quantity.getD sku.quantity,
    fabricMeters := args.fabricMeters.getD sku.fabricMeters,
    metersPerUnit := args.metersPerUnit.getD sku.metersPerUnit,
    fabricMeterPrice := args.fabricMeterPrice.getD sku.fabricMeterPrice,
    sewingCost := args.sewingCost.getD sku.sewingCost,
    accessoriesCost := args.accessoriesCost.getD sku.accessoriesCost,
    extraCosts := args.extraCosts.getD sku.extraCosts,
    salePrice := args.salePrice.getD sku.salePrice }

/-- `InventoryStore.update_item`: locate the row by code (0 rows on a miss),
write each supplied column in place, and save.  It never touches the movement
ledger. -/
def update_item (inv : InventoryState) (code : String) (args : UpdateArgs) :
    Nat × InventoryState :=
  match find_index_by_code inv code with
  | none => (0, inv)
  | some i =>
      match inv.items[i]? with
      | none => (0, inv)
      | some sku =>
          (1, { inv with items := inv.items.set i (apply_update_args sku args) })

/-- The POST handler core of `inventory_edit` (src/app.py lines 7093-7130):
refuse an unknown code; otherwise build an update dict keeping the existing
name/type when the form fields are blank, and always including the form's
Quantity; the form's "Buying Price" and "Selling Price" keys are not inventory
columns and are dropped by `update_item`. -/
def inventory_edit_post (inv : InventoryState) (code : String)
    (name typ : String) (qty : Int) (extra : Int) : InventoryState :=
  match get_by_code inv code with
  | none => inv
  | some item =>
      let args : UpdateArgs :=
        { productName := some (if name.strip = "" then item.productName else name.strip),
          skuType := some (if typ.strip = "" then item.skuType else typ.strip),
          quantity := some qty,
          fabricMeters := none, metersPerUnit := none, fabricMeterPrice := none,
          sewingCost := none, accessoriesCost := none,
          extraCosts := some extra, salePrice := none }
      (update_item inv code args).2

/-! ## Ledger consistency invariant (spec §3 and §8) -/

/-- Sum of the ledger deltas carrying a given product code with timestamp
at most `T`. -/
def ledger_sum_at (ms : List Movement) (code : String) (T : Nat) : Int :=
  ((ms.filter (fun m => m.productCode == code && decide (m.time ≤ T))).map
    (fun m => m.delta)).sum

/-- Ledger consistency at time `T`: every movement has happened by `T`, and
every SKU's quantityOnHand equals the sum of its ledger deltas with timestamp
≤ `T` (starting from 0 at creation). -/
def LedgerInvariantAt (inv : InventoryState) (T : Nat) : Prop :=
  (∀ m ∈ inv.movements, m.time ≤ T) ∧
  ∀ sku ∈ inv.items, sku.quantity = ledger_sum_at inv.movements sku.productCode T

instance (inv : InventoryState) (T : Nat) : Decidable (LedgerInvariantAt inv T) := by
  unfold LedgerInvariantAt; infer_instance

/-! ## The statistics page's revenue (src/app.py lines 5496-5701) -/

/-- The date filter `stats` applies to the orders frame: rows are kept by
their **`Time and Date` (creation) column**; a row with a missing/NaT creation
date is dropped as soon as either bound is present (a NaT comparison is
False). -/
def stats_filter_created (orders : List OrderRow) (dfrom dto : Option Nat) :
    List OrderRow :=
  let d :=
    match dfrom with
    | some start =>
        orders.filter (fun r =>
          match r.timeAndDate with
          | some t => decide (start ≤ t)
          | none => false)
    | none => orders
  match dto with
  | some stop =>
      d.filter (fun r =>
        match r.timeAndDate with
        | some t => decide (t ≤ stop)
        | none => false)
  | none => d

/-- The page filter of `stats`: keep rows whose Page Name equals the selected
page, or everything when no page is selected (empty string). -/
def stats_filter_page (orders : List OrderRow) (sel_page : String) : List OrderRow :=
  if sel_page = "" then orders
  else orders.filter (fun r => r.pageName == sel_page)

/-- Section 5 of `stats`: total revenue of delivered orders — the sum of
`Order Price` over rows of the date-and-page-filtered frame whose Status is
`STATUS_DELIVERED` (non-numeric prices are skipped by `pd.to_numeric(...),
.sum()`). -/
def stats_revenue (orders : List OrderRow) (dfrom dto : Option Nat)
    (sel_page : String) : Int :=
  let d := stats_filter_page (stats_filter_created orders dfrom dto) sel_page
  ((d.filter (fun r => r.status == STATUS_DELIVERED)).map
    (fun r => r.orderPrice.getD 0)).sum

/-- Membership of an order in the requested date range by its creation
timestamp, as `stats` decides it. -/
def created_in_range (r : OrderRow) (dfrom dto : Option Nat) : Bool :=
  (match dfrom with
   | some start => match r.timeAndDate with
     | some t => decide (start ≤ t)
     | none => false
   | none => true) &&
  (match dto with
   | some stop => match r.timeAndDate with
     | some t => decide (t ≤ stop)
     | none => false
   | none => true)

/-- Membership of an order in the requested date range by its `Delivered At`
timestamp, with the same boundary conventions. -/
def delivered_in_range (r : OrderRow) (dfrom dto : Option Nat) : Bool :=
  (match dfrom with
   | some start => match r.deliveredAt with
     | some t => decide (start ≤ t)
     | none => false
   | none => true) &&
  (match dto with
   | some stop => match r.deliveredAt with
     | some t => decide (t ≤ stop)
     | none => false
   | none => true)

/-- The revenue computation as the spec's sentence describes it, for
comparison with `stats_revenue`: sum of `Order Price` over Delivered orders
whose membership in the range is decided by the `Delivered At` timestamp. -/
def spec_revenue (orders : List OrderRow) (dfrom dto : Option Nat)
    (sel_page : String) : Int :=
  (((stats_filter_page orders sel_page).filter
      (fun r => r.status == STATUS_DELIVERED && delivered_in_range r dfrom dto)).map
    (fun r => r.orderPrice.getD 0)).sum

/-! ## Concrete states used by witnesses and counterexamples -/

/-- SKU INV0001 "Model A" with 10 on hand (Scenario A start). -/
def skuA : Sku :=
  ⟨"INV0001", "Model A", "عباية", 10, 0, 2, 5, 3, 1, 0, 45⟩

/-- Catalog holding only `skuA`, with an empty ledger. -/
def invA : InventoryState :=
  ⟨[skuA], []⟩

/-- Scenario A's order: id "100000001234", Ready, one item
`{code: INV0001, qty: 2}` (name left to catalog resolution). -/
def orderA : OrderRow :=
  ⟨"100000001234", some "Model A", "Page1", some 1, some 100, STATUS_READY,
    none, none, none, none, none, none, some [.entry "INV0001" "" (.num 2)]⟩

/-- Scenario A's system state. -/
def sysA : SysState :=
  ⟨[orderA], invA⟩

/-- An order already Delivered (for repeating a transition). -/
def orderDel : OrderRow :=
  ⟨"100000001234", none, "", some 1, some 100, STATUS_DELIVERED,
    some 3, some 2, some 3, none, none, none, none⟩

/-- System state holding only the already-delivered order. -/
def sysDel : SysState :=
  ⟨[orderDel], ⟨[], []⟩⟩

/-- Scenario B mid-flight: the order is Shipping and INV0001 is at 8 after the
dispatch withdrawal. -/
def invB : InventoryState :=
  ⟨[⟨"INV0001", "Model A", "عباية", 8, 0, 2, 5, 3, 1, 0, 45⟩,],
    [⟨1, 5, "INV0001", "Model A", -2, "Withdraw", "100000001234", ""⟩]⟩

/-- The Scenario B order, currently Shipping. -/
def orderB : OrderRow :=
  ⟨"100000001234", some "Model A", "Page1", some 1, some 100, STATUS_SHIPPING,
    some 5, some 5, none, none, none, none, some [.entry "INV0001" "" (.num 2)]⟩

/-- Scenario B system state. -/
def sysB : SysState :=
  ⟨[orderB], invB⟩

/-- A catalog satisfying ledger consistency: INV0001 at 10 with one
Production movement of +10 at time 5. -/
def invLedger : InventoryState :=
  ⟨[skuA], [⟨1, 5, "INV0001", "Model A", 10, "Production", "SEAM:1", ""⟩]⟩

/-- Two distinct SKUs that share the name "Model X". -/
def invX : InventoryState :=
  ⟨[⟨"INV0001", "Model X", "", 3, 0, 0, 0, 0, 0, 0, 0⟩,
    ⟨"INV0002", "Model X", "", 4, 0, 0, 0, 0, 0, 0, 0⟩], []⟩

/-- A Delivered order created at time 5 and delivered at time 15. -/
def orderC3 : OrderRow :=
  ⟨"100000000002", some "Model A", "", some 5, some 100, STATUS_DELIVERED,
    some 15, some 12, some 15, none, none, none, none⟩

/-- An order row whose id is too short (5 digits). -/
def rowBad : OrderRow :=
  ⟨"12345", some "Model A", "", some 1, some 50, "",
    none, none, none, none, none, none, none⟩

/-- An order row with a well-formed 12-digit id. -/
def rowGood : OrderRow :=
  ⟨"100000001235", some "Model A", "", some 1, some 50, "",
    none, none, none, none, none, none, none⟩

/-- A row whose item list exercises qty normalization and a non-dict entry. -/
def rowItems : OrderRow :=
  ⟨"100000001236", none, "", some 1, some 50, STATUS_READY,
    none, none, none, none, none, none,
    some [.entry "" "Dress" (.num 0), .notDict]⟩

/-- Metadata-only keyword arguments: a rename plus a cost change, no
Quantity key. -/
def argsMeta : UpdateArgs :=
  { productName := some "Model A2", skuType := none, quantity := none,
    fabricMeters := none, metersPerUnit := none, fabricMeterPrice := none,
    sewingCost := none, accessoriesCost := none, extraCosts := some 2,
    salePrice := none }

/-- `invLedger` after withdrawing 2 pieces of INV0001 at time 101. -/
def invLedgerAfter : InventoryState :=
  ⟨[⟨"INV0001", "Model A", "عباية", 8, 0, 2, 5, 3, 1, 0, 45⟩],
    [⟨1, 5, "INV0001", "Model A", 10, "Production", "SEAM:1", ""⟩,
      ⟨2, 101, "INV0001", "Model A", -2, "Withdraw", "100000001234", ""⟩]⟩

/-! ## Helper lemmas -/

/-- The (code, name) pair of an inventory row — everything SKU resolution
looks at. -/
def keyFields (s : Sku) : String × String :=
  (s.productCode, s.productName)

/-- Contribution of a list of adjustment calls to the SKU at index `j`:
the sum of the deltas of the items that resolve to `j`. -/
def resolve_contrib (inv : InventoryState) (d : OrderItem → Int)
    (items : List OrderItem) (j : Nat) : Int :=
  (items.map (fun it => if resolve_index inv (itemKey it) = some j then d it else 0)).sum

theorem list_set_self {α : Type} : ∀ (l : List α) (i : Nat) (a : α),
    l[i]? = some a → l.set i a = l := by
  intro l
  induction l with
  | nil => intro i a h; simp at h
  | cons x xs ih =>
      intro i a h
      cases i with
      | zero => simp_all
      | succ j =>
          simp only [List.getElem?_cons_succ] at h
          simp [List.set_cons_succ, ih j a h]

theorem findIdx?_factor {α β : Type} (f : α → β) (p : β → Bool) (l : List α) :
    l.findIdx? (fun a => p (f a)) = (l.map f).findIdx? p := by
  rw [List.findIdx?_map]
  rfl

theorem length_filter_factor {α β : Type} (f : α → β) (p : β → Bool) (l : List α) :
    (l.filter (fun a => p (f a))).length = ((l.map f).filter p).length := by
  induction l with
  | nil => rfl
  | cons x xs ih =>
      by_cases hx : p (f x) <;> simp [List.filter_cons, hx, ih]

/-- SKU resolution depends only on the (code, name) columns of the catalog. -/
theorem resolve_index_congr {inv₁ inv₂ : InventoryState}
    (h : inv₁.items.map keyFields = inv₂.items.map keyFields) (v : String) :
    resolve_index inv₁ v = resolve_index inv₂ v := by
  have hcode : ∀ c, find_index_by_code inv₁ c = find_index_by_code inv₂ c := by
    intro c
    show inv₁.items.findIdx? (fun s => (keyFields s).1 == c.strip) =
      inv₂.items.findIdx? (fun s => (keyFields s).1 == c.strip)
    rw [findIdx?_factor keyFields (fun kf => kf.1 == c.strip) inv₁.items,
        findIdx?_factor keyFields (fun kf => kf.1 == c.strip) inv₂.items, h]
  have hname : ∀ n, find_index_by_name inv₁ n = find_index_by_name inv₂ n := by
    intro n
    show inv₁.items.findIdx? (fun s => (keyFields s).2 == n.strip) =
      inv₂.items.findIdx? (fun s => (keyFields s).2 == n.strip)
    rw [findIdx?_factor keyFields (fun kf => kf.2 == n.strip) inv₁.items,
        findIdx?_factor keyFields (fun kf => kf.2 == n.strip) inv₂.items, h]
  have hfilt : ∀ n, (inv₁.items.filter (fun s => s.productName == n)).length =
      (inv₂.items.filter (fun s => s.productName == n)).length := by
    intro n
    show (inv₁.items.filter (fun s => (keyFields s).2 == n)).length =
      (inv₂.items.filter (fun s => (keyFields s).2 == n)).length
    rw [length_filter_factor keyFields (fun kf => kf.2 == n) inv₁.items,
        length_filter_factor keyFields (fun kf => kf.2 == n) inv₂.items, h]
  simp only [resolve_index]
  rw [hcode, hfilt, hname]

theorem findIdx?_some_lt {α : Type} {l : List α} {p : α → Bool} {i : Nat}
    (h : l.findIdx? p = some i) : i < l.length := by
  rw [List.findIdx?_eq_some_iff_getElem] at h
  exact h.1

/-- A successful resolution comes from a code or a unique-name index search. -/
theorem resolve_index_cases {inv : InventoryState} {v : String} {i : Nat}
    (h : resolve_index inv v = some i) :
    find_index_by_code inv v.strip = some i ∨
      (find_index_by_code inv v.strip = none ∧
        (inv.items.filter (fun s => s.productName == v.strip)).length = 1 ∧
        find_index_by_name inv v.strip = some i) := by
  simp only [resolve_index] at h
  by_cases hv : v.strip = ""
  · rw [if_pos hv] at h
    cases h
  · rw [if_neg hv] at h
    cases hc : find_index_by_code inv v.strip with
    | some j =>
        rw [hc] at h
        simp only [Option.some.injEq] at h
        subst h
        left
        rfl
    | none =>
        rw [hc] at h
        simp only [] at h
        by_cases hlen : (inv.items.filter (fun s => s.productName == v.strip)).length = 1
        · rw [if_pos hlen] at h
          exact Or.inr ⟨rfl, hlen, h⟩
        · rw [if_neg hlen] at h
          cases h

/-- A successful resolution index is a valid catalog index. -/
theorem resolve_index_get {inv : InventoryState} {v : String} {i : Nat}
    (h : resolve_index inv v = some i) : ∃ sku, inv.items[i]? = some sku := by
  have hlt : i < inv.items.length := by
    rcases resolve_index_cases h with hc | ⟨_, _, hn⟩
    · exact findIdx?_some_lt hc
    · exact findIdx?_some_lt hn
  exact ⟨inv.items[i], List.getElem?_eq_getElem hlt⟩


/-- The success form of the (spec-modelled) `adjust_quantity`. -/
theorem adjust_quantity_some {inv : InventoryState} {v : String} (δ : Int)
    (mt ref notes : String) (t : Nat) {i : Nat} {sku : Sku}
    (hres : resolve_index inv v = some i) (hget : inv.items[i]? = some sku) :
    adjust_quantity inv v δ mt ref notes t =
      some ({ items := inv.items.set i { sku with quantity := sku.quantity + δ },
              movements := movements_add inv.movements sku.productCode
                sku.productName δ mt ref notes t },
            sku.quantity + δ, sku.productName) := by
  simp [adjust_quantity, hres, hget]

/-- `adjust_quantity` fails before any write when resolution fails. -/
theorem adjust_quantity_none {inv : InventoryState} {v : String} (δ : Int)
    (mt ref notes : String) (t : Nat)
    (hres : resolve_index inv v = none) :
    adjust_quantity inv v δ mt ref notes t = none := by
  simp [adjust_quantity, hres]

theorem apply_adjust_some {inv : InventoryState} {v : String} (δ : Int)
    (mt ref notes : String) (t : Nat) {i : Nat} {sku : Sku}
    (hres : resolve_index inv v = some i) (hget : inv.items[i]? = some sku) :
    apply_adjust inv v δ mt ref notes t =
      { items := inv.items.set i { sku with quantity := sku.quantity + δ },
        movements := movements_add inv.movements sku.productCode
          sku.productName δ mt ref notes t } := by
  simp [apply_adjust, adjust_quantity_some δ mt ref notes t hres hget]

theorem apply_adjust_none {inv : InventoryState} {v : String} (δ : Int)
    (mt ref notes : String) (t : Nat)
    (hres : resolve_index inv v = none) :
    apply_adjust inv v δ mt ref notes t = inv := by
  simp [apply_adjust, adjust_quantity_none δ mt ref notes t hres]

/-- Overwriting a row with a quantity-only change leaves the (code, name)
columns of the catalog unchanged. -/
theorem map_keyFields_set {l : List Sku} {i : Nat} {sku sku' : Sku}
    (hget : l[i]? = some sku) (hkey : keyFields sku' = keyFields sku) :
    (l.set i sku').map keyFields = l.map keyFields := by
  rw [List.map_set]
  apply list_set_self
  rw [List.getElem?_map, hget]
  simp [hkey]

/-- Row-level effect of setting index `i` to a quantity-adjusted copy. -/
theorem set_step {l : List Sku} {i : Nat} {sku_a : Sku} (δ : Int)
    (hget : l[i]? = some sku_a) :
    ∀ j sku, l[j]? = some sku →
      ∃ sku₁, (l.set i { sku_a with quantity := sku_a.quantity + δ })[j]? = some sku₁ ∧
        keyFields sku₁ = keyFields sku ∧
        sku₁.quantity = sku.quantity + (if i = j then δ else 0) := by
  intro j sku hj
  by_cases hij : i = j
  · subst hij
    have hlt : i < l.length := by
      rcases List.getElem?_eq_some.mp hj with ⟨h, _⟩
      exact h
    have hsk : sku = sku_a := by
      rw [hget] at hj
      exact (Option.some.inj hj).symm
    subst hsk
    exact ⟨_, List.getElem?_set_self hlt, rfl, by simp⟩
  · exact ⟨sku, by rw [List.getElem?_set_ne hij]; exact hj, rfl, by simp [hij]⟩

theorem resolve_contrib_nil (inv : InventoryState) (d : OrderItem → Int) (j : Nat) :
    resolve_contrib inv d [] j = 0 := by
  simp [resolve_contrib]

theorem resolve_contrib_cons (inv : InventoryState) (d : OrderItem → Int)
    (a : OrderItem) (rest : List OrderItem) (j : Nat) :
    resolve_contrib inv d (a :: rest) j =
      (if resolve_index inv (itemKey a) = some j then d a else 0) +
        resolve_contrib inv d rest j := by
  simp [resolve_contrib]

theorem resolve_contrib_congr {inv₁ inv₂ : InventoryState}
    (h : inv₁.items.map keyFields = inv₂.items.map keyFields)
    (d : OrderItem → Int) (items : List OrderItem) (j : Nat) :
    resolve_contrib inv₁ d items j = resolve_contrib inv₂ d items j := by
  unfold resolve_contrib
  congr 1
  apply List.map_congr_left
  intro it _
  rw [resolve_index_congr h]

/-- When the resolved indices of the items are pairwise distinct, the item
resolving to `j` is the only contributor there. -/
theorem resolve_contrib_of_nodup {inv : InventoryState} {d : OrderItem → Int}
    {items : List OrderItem} {j : Nat} {it : OrderItem}
    (hnd : (items.map (fun x => resolve_index inv (itemKey x))).Nodup)
    (hmem : it ∈ items) (hres : resolve_index inv (itemKey it) = some j) :
    resolve_contrib inv d items j = d it := by
  induction items with
  | nil => cases hmem
  | cons a rest ih =>
      rw [resolve_contrib_cons]
      rw [List.map_cons, List.nodup_cons] at hnd
      rcases List.mem_cons.mp hmem with rfl | hmem'
      · rw [if_pos hres]
        have hz : resolve_contrib inv d rest j = 0 := by
          apply List.sum_eq_zero
          intro x hx
          rcases List.mem_map.mp hx with ⟨y, hy, rfl⟩
          have hne : resolve_index inv (itemKey y) ≠ some j := by
            intro hcontra
            exact hnd.1 (by
              rw [hres, ← hcontra]
              exact List.mem_map_of_mem _ hy)
          simp [hne]
        rw [hz]
        simp
      · have ha : ¬ resolve_index inv (itemKey a) = some j := by
          intro hcontra
          exact hnd.1 (by
            rw [hcontra, ← hres]
            exact List.mem_map_of_mem _ hmem')
        rw [if_neg ha, ih hnd.2 hmem']
        simp

theorem adjust_fold_nil (d : OrderItem → Int) (mt ref notes : String) (t : Nat)
    (inv : InventoryState) : adjust_fold [] d mt ref notes t inv = inv := rfl

theorem adjust_fold_cons (d : OrderItem → Int) (mt ref notes : String) (t : Nat)
    (a : OrderItem) (rest : List OrderItem) (inv : InventoryState) :
    adjust_fold (a :: rest) d mt ref notes t inv =
      adjust_fold rest d mt ref notes t
        (apply_adjust inv (itemKey a) (d a) mt ref notes t) := rfl

theorem movements_add_eq (ms : List Movement) (pc pn : String) (δ : Int)
    (mt ref notes : String) (t : Nat) :
    movements_add ms pc pn δ mt ref notes t =
      ms ++ [{ moveId := next_move_id ms, time := t, productCode := pc.strip,
               productName := pn.strip, delta := δ, movementType := mt.strip,
               ref := ref.strip, notes := notes.strip }] := rfl

/-- Full specification of one branch loop of the transition hook: when every
item resolves, the loop keeps the (code, name) columns, adds to each catalog
row exactly the summed deltas of the items resolving to it, and appends one
movement per item, in item order, carrying that item's delta, the movement
type, the ref and the resolved SKU's code and name. -/
theorem adjust_fold_spec (d : OrderItem → Int) (mt ref notes : String) (t : Nat) :
    ∀ (items : List OrderItem) (inv : InventoryState),
    (∀ it ∈ items, (resolve_index inv (itemKey it)).isSome) →
    ((adjust_fold items d mt ref notes t inv).items.map keyFields =
        inv.items.map keyFields) ∧
    (∀ j sku, inv.items[j]? = some sku →
      ∃ sku', (adjust_fold items d mt ref notes t inv).items[j]? = some sku' ∧
        keyFields sku' = keyFields sku ∧
        sku'.quantity = sku.quantity + resolve_contrib inv d items j) ∧
    (∃ extra : List Movement, (adjust_fold items d mt ref notes t inv).movements =
        inv.movements ++ extra ∧
      extra.length = items.length ∧
      ∀ (k : Nat) (mv : Movement) (it : OrderItem),
        extra[k]? = some mv → items[k]? = some it →
        mv.movementType = mt.strip ∧ mv.ref = ref.strip ∧ mv.notes = notes.strip ∧
        mv.delta = d it ∧ mv.time = t ∧
        ∀ i sku, resolve_index inv (itemKey it) = some i → inv.items[i]? = some sku →
          mv.productCode = sku.productCode.strip ∧
            mv.productName = sku.productName.strip) := by
  intro items
  induction items with
  | nil =>
      intro inv _
      refine ⟨rfl, ?_, [], by simp [adjust_fold_nil], rfl, ?_⟩
      · intro j sku hget
        exact ⟨sku, by simp [adjust_fold_nil, hget], rfl, by simp [resolve_contrib_nil]⟩
      · intro k mv it h1 _
        simp at h1
  | cons a rest ih =>
      intro inv hres
      have hres_a : (resolve_index inv (itemKey a)).isSome :=
        hres a (List.mem_cons_self a rest)
      rcases Option.isSome_iff_exists.mp hres_a with ⟨i, hres_a⟩
      rcases resolve_index_get hres_a with ⟨sku_a, hget_a⟩
      have hstep := apply_adjust_some (d a) mt ref notes t hres_a hget_a
      set inv₁ := apply_adjust inv (itemKey a) (d a) mt ref notes t with hinv₁
      have hkey₁ : inv₁.items.map keyFields = inv.items.map keyFields := by
        rw [hstep]
        exact map_keyFields_set hget_a rfl
      have hresolve₁ : ∀ v, resolve_index inv₁ v = resolve_index inv v :=
        resolve_index_congr hkey₁
      have hrest : ∀ it ∈ rest, (resolve_index inv₁ (itemKey it)).isSome := by
        intro it hit
        rw [hresolve₁]
        exact hres it (List.mem_cons_of_mem a hit)
      rcases ih inv₁ hrest with ⟨ihkey, ihqty, extra', ihmv, ihlen, ihprops⟩
      have hfold : adjust_fold (a :: rest) d mt ref notes t inv =
          adjust_fold rest d mt ref notes t inv₁ := by
        rw [adjust_fold_cons, hinv₁]
      have hstep_items : ∀ j sku, inv.items[j]? = some sku →
          ∃ sku₁, inv₁.items[j]? = some sku₁ ∧ keyFields sku₁ = keyFields sku ∧
            sku₁.quantity = sku.quantity + (if i = j then d a else 0) := by
        intro j sku hj
        rw [hstep]
        exact set_step (d a) hget_a j sku hj
      refine ⟨?_, ?_, ?_⟩
      · rw [hfold]
        exact ihkey.trans hkey₁
      · intro j sku hget
        rcases hstep_items j sku hget with ⟨sku₁, hget₁, hkeysku₁, hqty₁⟩
        rcases ihqty j sku₁ hget₁ with ⟨sku', hget', hkeysku', hqty'⟩
        refine ⟨sku', by rw [hfold]; exact hget', hkeysku'.trans hkeysku₁, ?_⟩
        rw [hqty', hqty₁, resolve_contrib_congr hkey₁ d rest j,
            resolve_contrib_cons]
        have hif : (if resolve_index inv (itemKey a) = some j then d a else 0) =
            (if i = j then d a else 0) := by
          by_cases hij : i = j
          · subst hij
            rw [if_pos hres_a, if_pos rfl]
          · rw [if_neg (by rw [hres_a]; simp [hij]), if_neg hij]
        rw [hif]
        ring
      · refine ⟨(⟨next_move_id inv.movements, t, sku_a.productCode.strip,
            sku_a.productName.strip, d a, mt.strip, ref.strip, notes.strip⟩ :
              Movement) :: extra', ?_, ?_, ?_⟩
        · rw [hfold, ihmv, hstep]
          simp [movements_add_eq]
        · simp [ihlen]
        · intro k mv it h1 h2
          cases k with
          | zero =>
              simp only [List.getElem?_cons_zero, Option.some.injEq] at h1 h2
              subst h1
              subst h2
              refine ⟨rfl, rfl, rfl, rfl, rfl, ?_⟩
              intro i' sku'' hres' hget''
              rw [hres_a] at hres'
              have hii : i = i' := Option.some.inj hres'
              subst hii
              rw [hget_a] at hget''
              have : sku_a = sku'' := Option.some.inj hget''
              subst this
              exact ⟨rfl, rfl⟩
          | succ k' =>
              simp only [List.getElem?_cons_succ] at h1 h2
              have hmain := ihprops k' mv it h1 h2
              refine ⟨hmain.1, hmain.2.1, hmain.2.2.1, hmain.2.2.2.1,
                hmain.2.2.2.2.1, ?_⟩
              intro i' sku'' hres' hget''
              rcases hstep_items i' sku'' hget'' with ⟨sku₁, hget₁, hkeysku₁, _⟩
              have hpair := hmain.2.2.2.2.2 i' sku₁ (by rw [hresolve₁]; exact hres') hget₁
              have hc : sku₁.productCode = sku''.productCode :=
                congrArg Prod.fst hkeysku₁
              have hn : sku₁.productName = sku''.productName :=
                congrArg Prod.snd hkeysku₁
              rw [hc, hn] at hpair
              exact hpair

/-- Any transition other than the two stock-moving pairs leaves the inventory
untouched. -/
theorem hook_no_stock (row : OrderRow) (old ns : String) (inv : InventoryState)
    (t : Nat) (h1 : ¬(old = STATUS_READY ∧ ns = STATUS_SHIPPING))
    (h2 : ¬(old = STATUS_SHIPPING ∧ ns = STATUS_RETURNED)) :
    adjust_inventory_on_transition row old ns inv t = inv := by
  by_cases hemp : (parse_items_from_row inv row).isEmpty
  · simp [adjust_inventory_on_transition, hemp]
  · simp [adjust_inventory_on_transition, hemp, h1, h2]

theorem hook_ready_shipping (row : OrderRow) (inv : InventoryState) (t : Nat)
    (hne : ¬(parse_items_from_row inv row).isEmpty) :
    adjust_inventory_on_transition row STATUS_READY STATUS_SHIPPING inv t =
      adjust_fold (parse_items_from_row inv row) (fun it => -it.qty) "Withdraw"
        row.txn "READY->SHIPPING" t inv := by
  have hd : ¬(STATUS_READY = STATUS_SHIPPING) := by decide
  simp [adjust_inventory_on_transition, hne, hd]

theorem hook_shipping_returned (row : OrderRow) (inv : InventoryState) (t : Nat)
    (hne : ¬(parse_items_from_row inv row).isEmpty) :
    adjust_inventory_on_transition row STATUS_SHIPPING STATUS_RETURNED inv t =
      adjust_fold (parse_items_from_row inv row) (fun it => it.qty) "Return"
        row.txn "SHIPPING->RETURNED" t inv := by
  have hd : ¬(STATUS_SHIPPING = STATUS_READY) := by decide
  simp [adjust_inventory_on_transition, hne, hd]

theorem find?_map_update {α : Type} (p : α → Bool) (row : α) :
    ∀ (l : List α) (r : α), l.find? p = some r → p row = true →
      (l.map (fun x => if p x then row else x)).find? p = some row := by
  intro l
  induction l with
  | nil => intro r h _; simp at h
  | cons x xs ih =>
      intro r h hrow
      by_cases hx : p x
      · simp only [List.map_cons, if_pos hx]
        exact List.find?_cons_of_pos _ hrow
      · rw [List.find?_cons_of_neg _ hx] at h
        simp only [List.map_cons, if_neg hx]
        rw [List.find?_cons_of_neg _ hx]
        exact ih r h hrow

theorem update_status_found {s : SysState} {txn : String} {row0 : OrderRow}
    (hfind : s.store.find? (fun r => r.txn == txn.strip) = some row0)
    (ns : String) (reason : Option String) (ts : Nat) :
    update_status s txn ns reason ts =
      (true,
        { store := s.store.map
            (fun r => if r.txn == txn.strip then stamp_row row0 ns reason ts else r),
          inv := adjust_inventory_on_transition (stamp_row row0 ns reason ts)
            row0.status ns s.inv ts }) := by
  simp [update_status, hfind]

theorem update_status_not_found {s : SysState} {txn : String}
    (hfind : s.store.find? (fun r => r.txn == txn.strip) = none)
    (ns : String) (reason : Option String) (ts : Nat) :
    update_status s txn ns reason ts = (false, s) := by
  simp [update_status, hfind]

theorem stamp_row_txn (row : OrderRow) (ns : String) (reason : Option String)
    (ts : Nat) : (stamp_row row ns reason ts).txn = row.txn := rfl

theorem stamp_row_items (row : OrderRow) (ns : String) (reason : Option String)
    (ts : Nat) : (stamp_row row ns reason ts).items = row.items := rfl

theorem stamp_row_status (row : OrderRow) (ns : String) (reason : Option String)
    (ts : Nat) : (stamp_row row ns reason ts).status = ns := rfl

theorem stamp_row_statusUpdatedAt (row : OrderRow) (ns : String)
    (reason : Option String) (ts : Nat) :
    (stamp_row row ns reason ts).statusUpdatedAt = some ts := rfl

theorem stamp_row_shippingAt (row : OrderRow) (ns : String)
    (reason : Option String) (ts : Nat) :
    (stamp_row row ns reason ts).shippingAt =
      if ns = STATUS_SHIPPING then some ts else row.shippingAt := rfl

theorem stamp_row_deliveredAt (row : OrderRow) (ns : String)
    (reason : Option String) (ts : Nat) :
    (stamp_row row ns reason ts).deliveredAt =
      if ns = STATUS_DELIVERED then some ts else row.deliveredAt := rfl

theorem stamp_row_returnedAt (row : OrderRow) (ns : String)
    (reason : Option String) (ts : Nat) :
    (stamp_row row ns reason ts).returnedAt =
      if ns = STATUS_RETURNED then some ts else row.returnedAt := rfl

theorem parse_items_stamp (inv : InventoryState) (row : OrderRow) (ns : String)
    (reason : Option String) (ts : Nat) :
    parse_items_from_row inv (stamp_row row ns reason ts) =
      parse_items_from_row inv row := rfl


/-! ## Claim theorems -/

/-- C9: `upsert_row` rejects any order id that is not a numeric string of at
least 6 digits, leaving the store unchanged, and accepts every id of that
shape (`valid_txn` is exactly "at least 6 characters, all digits"). -/
theorem upsert_row_validates_id (store : List OrderRow) (row : OrderRow) :
    (valid_txn row.txn.strip = false → upsert_row store row = (false, store)) ∧
    (valid_txn row.txn.strip = true → (upsert_row store row).1 = true) ∧
    (∀ t : String, valid_txn t = true ↔
      6 ≤ t.length ∧ ∀ c ∈ t.toList, c.isDigit = true) := by
  refine ⟨?_, ?_, ?_⟩
  · intro h
    simp [upsert_row, h]
  · intro h
    simp only [upsert_row, h, Bool.not_true, Bool.false_eq_true, if_false]
    split <;> rfl
  · intro t
    simp only [valid_txn, Bool.and_eq_true, bne_iff_ne, ne_eq,
      decide_eq_true_eq, List.all_eq_true]
    constructor
    · rintro ⟨⟨-, h2⟩, h3⟩
      exact ⟨h2, h3⟩
    · rintro ⟨h2, h3⟩
      refine ⟨⟨?_, h2⟩, h3⟩
      intro he
      subst he
      exact absurd h2 (by decide)

/-- C9 witness: the 5-digit id "12345" is rejected with the store untouched;
the 12-digit id of `rowGood` is accepted. -/
theorem upsert_row_validates_id_witness :
    upsert_row [] rowBad = (false, []) ∧ (upsert_row [] rowGood).1 = true :=
  ⟨(upsert_row_validates_id [] rowBad).1 (by decide),
    (upsert_row_validates_id [] rowGood).2.1 (by decide)⟩

/-- C10: every item returned by `parse_items_from_row` has a nonempty name and
qty ≥ 1; missing, falsy, unparsable and non-positive quantities normalize
to 1; an entry whose name cannot be resolved (from itself or the catalog via
its code) is dropped. -/
theorem parse_items_row_invariant :
    (∀ (inv : InventoryState) (row : OrderRow),
      ∀ it ∈ parse_items_from_row inv row, it.name ≠ "" ∧ 1 ≤ it.qty) ∧
    (parseQty .missing = 1 ∧ parseQty .falsy = 1 ∧ parseQty .unparsable = 1 ∧
      ∀ v : Int, v ≤ 0 → parseQty (.num v) = 1) ∧
    (∀ (inv : InventoryState) (code name : String) (qf : QtyField),
      name.strip = "" →
      (∀ s, get_by_code inv code.strip = some s → s.productName.strip = "") →
      normalize_entry inv (.entry code name qf) = none) := by
  have hq : ∀ qf, 1 ≤ parseQty qf := by
    intro qf
    cases qf with
    | missing => simp [parseQty]
    | falsy => simp [parseQty]
    | unparsable => simp [parseQty]
    | num v =>
        simp only [parseQty]
        split <;> omega
  have hn : ∀ inv e it, normalize_entry inv e = some it →
      it.name ≠ "" ∧ 1 ≤ it.qty := by
    intro inv e it h
    cases e with
    | notDict => simp [normalize_entry] at h
    | entry code name qf =>
        simp only [normalize_entry] at h
        by_cases hname : effective_name inv code.strip name.strip = ""
        · rw [if_pos hname] at h
          cases h
        · rw [if_neg hname] at h
          cases Option.some.inj h
          exact ⟨hname, hq qf⟩
  refine ⟨?_, ⟨rfl, rfl, rfl, ?_⟩, ?_⟩
  · intro inv row it hit
    cases hI : row.items with
    | some l =>
        cases l with
        | nil =>
            simp only [parse_items_from_row, hI] at hit
            cases hP : row.productName with
            | some n =>
                rw [hP] at hit
                by_cases hn' : n.strip = ""
                · simp [hn'] at hit
                · simp only [hn', if_false, if_neg, not_false_iff,
                    List.mem_singleton] at hit
                  subst hit
                  exact ⟨hn', le_refl 1⟩
            | none => rw [hP] at hit; cases hit
        | cons e rest =>
            simp only [parse_items_from_row, hI] at hit
            rcases List.mem_filterMap.mp hit with ⟨x, _, hx⟩
            exact hn inv x it hx
    | none =>
        simp only [parse_items_from_row, hI] at hit
        cases hP : row.productName with
        | some n =>
            rw [hP] at hit
            by_cases hn' : n.strip = ""
            · simp [hn'] at hit
            · simp only [hn', if_false, if_neg, not_false_iff,
                List.mem_singleton] at hit
              subst hit
              exact ⟨hn', le_refl 1⟩
        | none => rw [hP] at hit; cases hit
  · intro v hv
    simp [parseQty, hv]
  · intro inv code name qf hname hlook
    have he : effective_name inv code.strip name.strip = "" := by
      unfold effective_name
      by_cases hc : code.strip = ""
      · simp [hname, hc]
      · rw [if_pos ⟨hname, hc⟩]
        cases hg : get_by_code inv code.strip with
        | some s => exact hlook s hg
        | none => exact hname
    simp [normalize_entry, he]

/-- C10 witness: `rowItems` (an entry named "Dress" with qty 0 plus a non-dict
element) parses to items with nonempty names and qty ≥ 1; `qty = -3`
normalizes to 1; a nameless entry with an unknown code is dropped. -/
theorem parse_items_row_invariant_witness :
    (∀ it ∈ parse_items_from_row ⟨[], []⟩ rowItems, it.name ≠ "" ∧ 1 ≤ it.qty) ∧
    parseQty (.num (-3)) = 1 ∧
    normalize_entry ⟨[], []⟩ (.entry "INV9999" "" .missing) = none :=
  ⟨parse_items_row_invariant.1 ⟨[], []⟩ rowItems,
    parse_items_row_invariant.2.1.2.2.2 (-3) (by decide),
    parse_items_row_invariant.2.2 ⟨[], []⟩ "INV9999" "" .missing rfl
      (fun _ hs => Option.noConfusion hs)⟩

/-- C7: SKU resolution prefers an exact code match; with no code match, a name
borne by two or more SKUs fails to resolve (rather than silently picking the
first match), and a failed resolution writes no movement and changes no
quantity (`adjust_quantity` returns the failure before any write). -/
theorem resolve_prefers_code_rejects_ambiguous :
    (∀ (inv : InventoryState) (v : String) (i : Nat),
      v.strip ≠ "" → find_index_by_code inv v.strip = some i →
      resolve_index inv v = some i) ∧
    (∀ (inv : InventoryState) (v : String),
      find_index_by_code inv v.strip = none →
      2 ≤ (inv.items.filter (fun s => s.productName == v.strip)).length →
      resolve_index inv v = none) ∧
    (∀ (inv : InventoryState) (v : String) (δ : Int) (mt ref notes : String)
      (t : Nat), resolve_index inv v = none →
      adjust_quantity inv v δ mt ref notes t = none ∧
      apply_adjust inv v δ mt ref notes t = inv) := by
  refine ⟨?_, ?_, ?_⟩
  · intro inv v i hv hc
    simp [resolve_index, hv, hc]
  · intro inv v hc hlen
    by_cases hv : v.strip = ""
    · simp [resolve_index, hv]
    · have h1 : ¬ (inv.items.filter (fun s => s.productName == v.strip)).length = 1 := by
        omega
      simp [resolve_index, hv, hc, h1]
  · intro inv v δ mt ref notes t hres
    exact ⟨adjust_quantity_none δ mt ref notes t hres,
      apply_adjust_none δ mt ref notes t hres⟩

/-- C7 witness: with two SKUs both named "Model X", resolving "Model X" fails
and an adjustment against it writes nothing, while the exact code "INV0002"
still resolves. -/
theorem resolve_ambiguity_witness :
    resolve_index invX "Model X" = none ∧
    adjust_quantity invX "Model X" (-2) "Withdraw" "100000001234" "" 5 = none ∧
    resolve_index invX "INV0002" = some 1 :=
  have h1 : resolve_index invX "Model X" = none :=
    resolve_prefers_code_rejects_ambiguous.2.1 invX "Model X" (by decide) (by decide)
  ⟨h1,
    (resolve_prefers_code_rejects_ambiguous.2.2 invX "Model X" (-2) "Withdraw"
      "100000001234" "" 5 h1).1,
    resolve_prefers_code_rejects_ambiguous.1 invX "INV0002" 1 (by decide) (by decide)⟩

/-- C4 counterexample: calling the Delivered transition on an order that is
already Delivered is **accepted** — `update_status` returns success for any
existing order id — rather than rejected as NotFound/InvalidTransition. -/
theorem repeat_transition_accepted :
    (update_status sysDel "100000001234" STATUS_DELIVERED none 8).1 = true := by
  decide

/-- C4 amended: repeating an already-applied transition is accepted, not
rejected; it still causes no stock change, because the hook (run exactly once
per call) only moves stock on Ready→Shipping and Shipping→Returned. -/
theorem update_status_repeat_no_stock {s : SysState} {txn : String}
    {row0 : OrderRow}
    (hfind : s.store.find? (fun r => r.txn == txn.strip) = some row0)
    (ns : String) (reason : Option String) (ts : Nat)
    (h1 : ¬(row0.status = STATUS_READY ∧ ns = STATUS_SHIPPING))
    (h2 : ¬(row0.status = STATUS_SHIPPING ∧ ns = STATUS_RETURNED)) :
    (update_status s txn ns reason ts).1 = true ∧
    (update_status s txn ns reason ts).2.inv = s.inv := by
  rw [update_status_found hfind ns reason ts]
  exact ⟨rfl, hook_no_stock _ _ _ _ _ h1 h2⟩

/-- C4 witness: marking the already-delivered order Delivered again succeeds
and leaves the inventory exactly as it was. -/
theorem update_status_repeat_no_stock_witness :
    (update_status sysDel "100000001234" STATUS_DELIVERED none 9).1 = true ∧
    (update_status sysDel "100000001234" STATUS_DELIVERED none 9).2.inv =
      sysDel.inv :=
  update_status_repeat_no_stock
    (show sysDel.store.find?
        (fun r => r.txn == ("100000001234" : String).strip) = some orderDel
      by decide)
    STATUS_DELIVERED none 9 (by decide) (by decide)

/-- C5 counterexample: the inventory edit route passes the form's Quantity
through `update_item`, so a catalog edit changes quantityOnHand (10 → 5) while
writing no movement — stock changes outside `adjust_quantity`. -/
theorem inventory_edit_changes_stock :
    invA.items.map Sku.quantity = [10] ∧
    (inventory_edit_post invA "INV0001" "" "" 5 0).items.map Sku.quantity = [5] ∧
    (inventory_edit_post invA "INV0001" "" "" 5 0).movements = invA.movements := by
  decide

/-- C5 amended: `update_item` applied with metadata-only keyword arguments
(no Quantity key) keeps every SKU's quantityOnHand, and `update_item` never
writes the ledger; but the inventory edit route always passes the form's
Quantity, so stock can change without any `adjust_quantity` call. -/
theorem update_item_metadata_frame (inv : InventoryState) (code : String)
    (args : UpdateArgs) (h : args.quantity = none) :
    (update_item inv code args).2.items.map Sku.quantity =
      inv.items.map Sku.quantity ∧
    (update_item inv code args).2.movements = inv.movements := by
  cases hidx : find_index_by_code inv code with
  | none => simp [update_item, hidx]
  | some i =>
      cases hget : inv.items[i]? with
      | none => simp [update_item, hidx, hget]
      | some sku =>
          simp only [update_item, hidx, hget]
          refine ⟨?_, trivial⟩
          rw [List.map_set]
          have hqty : (apply_update_args sku args).quantity = sku.quantity := by
            simp [apply_update_args, h]
          rw [hqty]
          apply list_set_self
          rw [List.getElem?_map, hget]
          rfl

/-- C5 witness: a rename-and-cost edit with no Quantity key leaves the
quantity column and the ledger untouched. -/
theorem update_item_metadata_frame_witness :
    (update_item invA "INV0001" argsMeta).2.items.map Sku.quantity =
      invA.items.map Sku.quantity ∧
    (update_item invA "INV0001" argsMeta).2.movements = invA.movements :=
  update_item_metadata_frame invA "INV0001" argsMeta rfl

/-- C8: a successful `update_status` stamps `Status Updated At` with now and
the typed timestamp matching the new status; the other typed timestamps are
carried over unchanged, so a typed timestamp that is set is never cleared by
any later transition. -/
theorem update_status_stamps {s : SysState} {txn : String} {row0 : OrderRow}
    (hfind : s.store.find? (fun r => r.txn == txn.strip) = some row0)
    (ns : String) (reason : Option String) (ts : Nat) :
    (update_status s txn ns reason ts).1 = true ∧
    ∃ row', (update_status s txn ns reason ts).2.store.find?
        (fun r => r.txn == txn.strip) = some row' ∧
      row'.status = ns ∧
      row'.statusUpdatedAt = some ts ∧
      (ns = STATUS_SHIPPING → row'.shippingAt = some ts) ∧
      (ns = STATUS_DELIVERED → row'.deliveredAt = some ts) ∧
      (ns = STATUS_RETURNED → row'.returnedAt = some ts) ∧
      (ns ≠ STATUS_SHIPPING → row'.shippingAt = row0.shippingAt) ∧
      (ns ≠ STATUS_DELIVERED → row'.deliveredAt = row0.deliveredAt) ∧
      (ns ≠ STATUS_RETURNED → row'.returnedAt = row0.returnedAt) ∧
      (row0.shippingAt.isSome → row'.shippingAt.isSome) ∧
      (row0.deliveredAt.isSome → row'.deliveredAt.isSome) ∧
      (row0.returnedAt.isSome → row'.returnedAt.isSome) := by
  have hp : ((stamp_row row0 ns reason ts).txn == txn.strip) = true := by
    have h := List.find?_some hfind
    rw [stamp_row_txn]
    exact h
  rw [update_status_found hfind ns reason ts]
  refine ⟨rfl, stamp_row row0 ns reason ts,
    find?_map_update _ _ s.store row0 hfind hp,
    stamp_row_status row0 ns reason ts,
    stamp_row_statusUpdatedAt row0 ns reason ts, ?_, ?_, ?_, ?_, ?_, ?_, ?_, ?_, ?_⟩
  · intro hns
    rw [stamp_row_shippingAt, if_pos hns]
  · intro hns
    rw [stamp_row_deliveredAt, if_pos hns]
  · intro hns
    rw [stamp_row_returnedAt, if_pos hns]
  · intro hns
    rw [stamp_row_shippingAt, if_neg hns]
  · intro hns
    rw [stamp_row_deliveredAt, if_neg hns]
  · intro hns
    rw [stamp_row_returnedAt, if_neg hns]
  · intro hsome
    rw [stamp_row_shippingAt]
    split
    · rfl
    · exact hsome
  · intro hsome
    rw [stamp_row_deliveredAt]
    split
    · rfl
    · exact hsome
  · intro hsome
    rw [stamp_row_returnedAt]
    split
    · rfl
    · exact hsome

/-- C8 witness: re-marking the delivered order (which already carries
`shippingAt = 2`, `deliveredAt = 3`) as Returned stamps `returnedAt` and
`statusUpdatedAt` while keeping both earlier typed timestamps set. -/
theorem update_status_stamps_witness :
    (update_status sysDel "100000001234" STATUS_RETURNED none 9).1 = true ∧
    ∃ row', (update_status sysDel "100000001234" STATUS_RETURNED none 9).2.store.find?
        (fun r => r.txn == ("100000001234" : String).strip) = some row' ∧
      row'.status = STATUS_RETURNED ∧
      row'.statusUpdatedAt = some 9 ∧
      (STATUS_RETURNED = STATUS_SHIPPING → row'.shippingAt = some 9) ∧
      (STATUS_RETURNED = STATUS_DELIVERED → row'.deliveredAt = some 9) ∧
      (STATUS_RETURNED = STATUS_RETURNED → row'.returnedAt = some 9) ∧
      (STATUS_RETURNED ≠ STATUS_SHIPPING → row'.shippingAt = orderDel.shippingAt) ∧
      (STATUS_RETURNED ≠ STATUS_DELIVERED → row'.deliveredAt = orderDel.deliveredAt) ∧
      (STATUS_RETURNED ≠ STATUS_RETURNED → row'.returnedAt = orderDel.returnedAt) ∧
      (orderDel.shippingAt.isSome → row'.shippingAt.isSome) ∧
      (orderDel.deliveredAt.isSome → row'.deliveredAt.isSome) ∧
      (orderDel.returnedAt.isSome → row'.returnedAt.isSome) :=
  update_status_stamps
    (show sysDel.store.find?
        (fun r => r.txn == ("100000001234" : String).strip) = some orderDel
      by decide)
    STATUS_RETURNED none 9

theorem ledger_sum_at_append_one (ms : List Movement) (mv : Movement)
    (code : String) (T : Nat) :
    ledger_sum_at (ms ++ [mv]) code T =
      ledger_sum_at ms code T +
        (if mv.productCode == code && decide (mv.time ≤ T) then mv.delta else 0) := by
  simp only [ledger_sum_at, List.filter_append, List.map_append, List.sum_append]
  split
  · rename_i hcond
    simp [List.filter_cons, hcond]
  · rename_i hcond
    simp [List.filter_cons, hcond]

theorem ledger_sum_at_stable {ms : List Movement} {T t : Nat}
    (hms : ∀ m ∈ ms, m.time ≤ T) (hT : T ≤ t) (code : String) :
    ledger_sum_at ms code t = ledger_sum_at ms code T := by
  unfold ledger_sum_at
  congr 1
  apply congrArg
  apply List.filter_congr
  intro m hm
  have h1 : m.time ≤ T := hms m hm
  have h2 : m.time ≤ t := le_trans h1 hT
  simp [h1, h2]

theorem nodup_codes_distinct {l : List Sku}
    (h : (l.map Sku.productCode).Nodup) {i j : Nat} {a b : Sku}
    (hij : i ≠ j) (ha : l[i]? = some a) (hb : l[j]? = some b) :
    a.productCode ≠ b.productCode := by
  intro hcontra
  rcases List.getElem?_eq_some.mp ha with ⟨hia, hga⟩
  rcases List.getElem?_eq_some.mp hb with ⟨hjb, hgb⟩
  have hia' : i < (l.map Sku.productCode).length := by simpa using hia
  have hjb' : j < (l.map Sku.productCode).length := by simpa using hjb
  have heq : (l.map Sku.productCode)[i] = (l.map Sku.productCode)[j] := by
    rw [List.getElem_map, List.getElem_map, hga, hgb]
    exact hcontra
  exact hij ((h.getElem_inj_iff).mp heq)

/-- C2 amended: quantity changes made through `adjust_quantity` preserve
ledger consistency — when the catalog's codes are pairwise distinct and
stripped, a successful adjustment at time `t ≥ T` carries the invariant from
`T` to `t`: the adjusted SKU's new quantity equals its old delta-sum plus the
newly appended movement's delta, and every other SKU's sum is untouched.
(The claim's "every operation" fails: see the counterexample theorem.) -/
theorem adjust_quantity_preserves_ledger {inv : InventoryState} {T t : Nat}
    (hnodup : (inv.items.map Sku.productCode).Nodup)
    (htrim : ∀ sku ∈ inv.items, sku.productCode.strip = sku.productCode)
    (hinv : LedgerInvariantAt inv T) (hT : T ≤ t)
    (v : String) (δ : Int) (mt ref notes : String)
    {out : InventoryState × Int × String}
    (hadj : adjust_quantity inv v δ mt ref notes t = some out) :
    LedgerInvariantAt out.1 t := by
  cases hres : resolve_index inv v with
  | none =>
      rw [adjust_quantity_none δ mt ref notes t hres] at hadj
      cases hadj
  | some i =>
      rcases resolve_index_get hres with ⟨sku, hget⟩
      rw [adjust_quantity_some δ mt ref notes t hres hget] at hadj
      have hout := (Option.some.inj hadj).symm
      subst hout
      have hskumem : sku ∈ inv.items := List.getElem?_mem hget
      have hcode : sku.productCode.strip = sku.productCode := htrim sku hskumem
      constructor
      · intro m hm
        simp only [movements_add_eq] at hm
        rcases List.mem_append.mp hm with hold | hnew
        · exact le_trans (hinv.1 m hold) hT
        · rcases List.mem_singleton.mp hnew with rfl
          exact le_refl t
      · intro sku'' hmem
        rcases List.mem_iff_getElem?.mp hmem with ⟨j, hj⟩
        show sku''.quantity = ledger_sum_at
          (movements_add inv.movements sku.productCode sku.productName δ mt ref
            notes t) sku''.productCode t
        rw [movements_add_eq, ledger_sum_at_append_one,
          ledger_sum_at_stable hinv.1 hT]
        by_cases hij : i = j
        · subst hij
          have hlt : i < inv.items.length := (List.getElem?_eq_some.mp hget).1
          rw [List.getElem?_set_self hlt] at hj
          have hsk : sku'' = { sku with quantity := sku.quantity + δ } :=
            (Option.some.inj hj).symm
          subst hsk
          have hcond : ((sku.productCode.strip == sku.productCode) &&
              decide (t ≤ t)) = true := by
            rw [hcode]
            simp
          rw [if_pos hcond]
          have hold := hinv.2 sku hskumem
          show sku.quantity + δ = ledger_sum_at inv.movements sku.productCode T + δ
          rw [← hold]
        · rw [List.getElem?_set_ne hij] at hj
          have hmem'' : sku'' ∈ inv.items := List.getElem?_mem hj
          have hne : sku.productCode ≠ sku''.productCode :=
            nodup_codes_distinct hnodup hij hget hj
          have hcond : ((sku.productCode.strip == sku''.productCode) &&
              decide (t ≤ t)) = false := by
            rw [hcode]
            simp [hne]
          have hcond' : ¬(((sku.productCode.strip == sku''.productCode) &&
              decide (t ≤ t)) = true) := by
            rw [hcond]
            simp
          rw [if_neg hcond']
          have hold := hinv.2 sku'' hmem''
          rw [← hold]
          ring

/-- C2 counterexample: `invLedger` satisfies ledger consistency at T = 100
(INV0001 at 10 with one +10 Production movement), yet one POST to the
inventory edit route rewrites Quantity to 5 through `update_item` with no
movement, breaking the invariant — so not every operation preserves it. -/
theorem ledger_consistency_broken_by_edit :
    LedgerInvariantAt invLedger 100 ∧
    ¬ LedgerInvariantAt (inventory_edit_post invLedger "INV0001" "" "" 5 0) 100 := by
  decide

/-- C2 witness: withdrawing 2 pieces of INV0001 from the consistent
`invLedger` state at time 101 yields a state that is again
ledger-consistent. -/
theorem adjust_quantity_preserves_ledger_witness :
    LedgerInvariantAt (invLedgerAfter, (8 : Int), "Model A").1 101 :=
  adjust_quantity_preserves_ledger
    (show (invLedger.items.map Sku.productCode).Nodup by decide)
    (show ∀ sku ∈ invLedger.items, sku.productCode.strip = sku.productCode by decide)
    (show LedgerInvariantAt invLedger 100 by decide)
    (show (100 : Nat) ≤ 101 by decide)
    "INV0001" (-2) "Withdraw" "100000001234" ""
    (show adjust_quantity invLedger "INV0001" (-2) "Withdraw" "100000001234" ""
        101 = some (invLedgerAfter, 8, "Model A") by decide)

theorem stats_filter_created_eq (orders : List OrderRow) (dfrom dto : Option Nat) :
    stats_filter_created orders dfrom dto =
      orders.filter (fun r => created_in_range r dfrom dto) := by
  cases dfrom with
  | none =>
      cases dto with
      | none =>
          show orders = orders.filter (fun r => created_in_range r none none)
          rw [show (fun r : OrderRow => created_in_range r none none) =
            (fun _ : OrderRow => true) from rfl]
          rw [List.filter_true]
      | some b =>
          apply List.filter_congr
          intro r _
          simp [created_in_range]
  | some a =>
      cases dto with
      | none =>
          apply List.filter_congr
          intro r _
          simp [created_in_range]
      | some b =>
          show (orders.filter _).filter _ = _
          rw [List.filter_filter]
          apply List.filter_congr
          intro r _
          simp only [created_in_range]
          cases r.timeAndDate with
          | none => rfl
          | some ti => simp [Bool.and_comm]

theorem stats_filter_page_eq (orders : List OrderRow) (p : String) :
    stats_filter_page orders p =
      orders.filter (fun r => p == "" || r.pageName == p) := by
  by_cases hp : p = ""
  · subst hp
    show (if ("" : String) = "" then orders
      else orders.filter (fun r => r.pageName == "")) = _
    rw [if_pos rfl]
    rw [show (fun r : OrderRow => ("" : String) == "" || r.pageName == "") =
      (fun _ : OrderRow => true) from rfl]
    rw [List.filter_true]
  · simp only [stats_filter_page, if_neg hp]
    apply List.filter_congr
    intro r _
    have hb : (p == "") = false := by simp [hp]
    simp [hb]

/-- C3 amended: the report's revenue is the sum of `Order Price` over orders
that are Delivered, match the page filter, and whose **creation timestamp
(`Time and Date`) lies in the requested range** — the `Delivered At` column
plays no part in the date filtering. -/
theorem stats_revenue_by_creation_date (orders : List OrderRow)
    (dfrom dto : Option Nat) (p : String) :
    stats_revenue orders dfrom dto p =
      ((orders.filter (fun r => created_in_range r dfrom dto &&
          (p == "" || r.pageName == p) && (r.status == STATUS_DELIVERED))).map
        (fun r => r.orderPrice.getD 0)).sum := by
  have hpipe : stats_revenue orders dfrom dto p =
      (((stats_filter_page (stats_filter_created orders dfrom dto) p).filter
          (fun r => r.status == STATUS_DELIVERED)).map
        (fun r => r.orderPrice.getD 0)).sum := rfl
  rw [hpipe, stats_filter_created_eq, stats_filter_page_eq, List.filter_filter,
    List.filter_filter]
  have hfc : orders.filter (fun r => ((r.status == STATUS_DELIVERED) &&
        (p == "" || r.pageName == p)) && created_in_range r dfrom dto) =
      orders.filter (fun r => created_in_range r dfrom dto &&
        (p == "" || r.pageName == p) && (r.status == STATUS_DELIVERED)) := by
    apply List.filter_congr
    intro r _
    cases created_in_range r dfrom dto <;>
      cases (p == "" || r.pageName == p) <;>
        cases (r.status == STATUS_DELIVERED) <;> rfl
  exact congrArg (fun l : List OrderRow =>
    (l.map (fun r => r.orderPrice.getD 0)).sum) hfc

/-- C3 counterexample: an order delivered at time 15 (inside the range
[10, 20]) but created at time 5 (outside it) contributes nothing to the
code's revenue, while the spec's deliveredAt-filtered revenue counts its
full price. -/
theorem stats_revenue_ignores_deliveredAt :
    stats_revenue [orderC3] (some 10) (some 20) "" = 0 ∧
    spec_revenue [orderC3] (some 10) (some 20) "" = 100 := by
  decide

/-- C1: transitioning a Ready order (whose items all resolve, to pairwise
distinct SKUs) to Shipping succeeds and withdraws stock per item: each
resolved SKU's quantityOnHand drops by exactly that item's qty, and the ledger
grows by exactly one Withdraw movement per item carrying delta = −qty and
ref = the order's id.  (`adjust_quantity` itself is modelled from spec §4.2;
its definition is absent from src/app.py.) -/
theorem ready_to_shipping_withdraws {s : SysState} {txn : String}
    {row0 : OrderRow}
    (hfind : s.store.find? (fun r => r.txn == txn.strip) = some row0)
    (hready : row0.status = STATUS_READY) (ts : Nat)
    (hne : parse_items_from_row s.inv row0 ≠ [])
    (hres : ∀ it ∈ parse_items_from_row s.inv row0,
      (resolve_index s.inv (itemKey it)).isSome)
    (hnd : ((parse_items_from_row s.inv row0).map
      (fun it => resolve_index s.inv (itemKey it))).Nodup) :
    (update_status s txn STATUS_SHIPPING none ts).1 = true ∧
    (∀ it ∈ parse_items_from_row s.inv row0, ∀ i sku,
      resolve_index s.inv (itemKey it) = some i → s.inv.items[i]? = some sku →
      ∃ sku', (update_status s txn STATUS_SHIPPING none ts).2.inv.items[i]? =
          some sku' ∧
        sku'.productCode = sku.productCode ∧
        sku'.productName = sku.productName ∧
        sku'.quantity = sku.quantity - it.qty) ∧
    (∃ extra : List Movement,
      (update_status s txn STATUS_SHIPPING none ts).2.inv.movements =
        s.inv.movements ++ extra ∧
      extra.length = (parse_items_from_row s.inv row0).length ∧
      ∀ (k : Nat) (mv : Movement) (it : OrderItem),
        extra[k]? = some mv → (parse_items_from_row s.inv row0)[k]? = some it →
        mv.movementType = "Withdraw" ∧ mv.delta = -it.qty ∧
        mv.ref = row0.txn.strip ∧
        ∀ i sku, resolve_index s.inv (itemKey it) = some i →
          s.inv.items[i]? = some sku →
          mv.productCode = sku.productCode.strip) := by
  have hitems : parse_items_from_row s.inv
      (stamp_row row0 STATUS_SHIPPING none ts) = parse_items_from_row s.inv row0 :=
    parse_items_stamp _ _ _ _ _
  have hne' : ¬ (parse_items_from_row s.inv
      (stamp_row row0 STATUS_SHIPPING none ts)).isEmpty = true := by
    rw [hitems]
    simp only [List.isEmpty_iff]
    exact hne
  have hhook : adjust_inventory_on_transition
      (stamp_row row0 STATUS_SHIPPING none ts) row0.status STATUS_SHIPPING
      s.inv ts =
      adjust_fold (parse_items_from_row s.inv row0) (fun it => -it.qty)
        "Withdraw" row0.txn "READY->SHIPPING" ts s.inv := by
    rw [hready, hook_ready_shipping _ _ _ hne', hitems, stamp_row_txn]
  obtain ⟨hkey, hqty, extra, hmv, hlen, hprops⟩ :=
    adjust_fold_spec (fun it => -it.qty) "Withdraw" row0.txn "READY->SHIPPING"
      ts (parse_items_from_row s.inv row0) s.inv hres
  rw [update_status_found hfind STATUS_SHIPPING none ts, hhook]
  refine ⟨rfl, ?_, extra, hmv, hlen, ?_⟩
  · intro it hit i sku hresit hget
    obtain ⟨sku', hget', hkey', hq'⟩ := hqty i sku hget
    refine ⟨sku', hget', congrArg Prod.fst hkey', congrArg Prod.snd hkey', ?_⟩
    rw [hq', resolve_contrib_of_nodup hnd hit hresit]
    ring
  · intro k mv it h1 h2
    obtain ⟨hmt, href, -, hdelta, -, hcode⟩ := hprops k mv it h1 h2
    exact ⟨hmt, hdelta, href, fun i sku hri hgi => (hcode i sku hri hgi).1⟩

/-- C1 witness (Scenario A): order "100000001234" (Ready, one item INV0001 ×2)
against a catalog holding INV0001 at 10.  The transition succeeds, INV0001
drops to 8, and exactly one Withdraw movement with delta −2 and
ref "100000001234" is appended. -/
theorem ready_to_shipping_withdraws_witness :
    (update_status sysA "100000001234" STATUS_SHIPPING none 7).1 = true ∧
    (∀ it ∈ parse_items_from_row sysA.inv orderA, ∀ i sku,
      resolve_index sysA.inv (itemKey it) = some i →
      sysA.inv.items[i]? = some sku →
      ∃ sku', (update_status sysA "100000001234" STATUS_SHIPPING none
          7).2.inv.items[i]? = some sku' ∧
        sku'.productCode = sku.productCode ∧
        sku'.productName = sku.productName ∧
        sku'.quantity = sku.quantity - it.qty) ∧
    (∃ extra : List Movement,
      (update_status sysA "100000001234" STATUS_SHIPPING none 7).2.inv.movements =
        sysA.inv.movements ++ extra ∧
      extra.length = (parse_items_from_row sysA.inv orderA).length ∧
      ∀ (k : Nat) (mv : Movement) (it : OrderItem),
        extra[k]? = some mv →
        (parse_items_from_row sysA.inv orderA)[k]? = some it →
        mv.movementType = "Withdraw" ∧ mv.delta = -it.qty ∧
        mv.ref = ("100000001234" : String).strip ∧
        ∀ i sku, resolve_index sysA.inv (itemKey it) = some i →
          sysA.inv.items[i]? = some sku →
          mv.productCode = sku.productCode.strip) :=
  ready_to_shipping_withdraws
    (show sysA.store.find?
        (fun r => r.txn == ("100000001234" : String).strip) = some orderA
      by decide)
    (show orderA.status = STATUS_READY from rfl) 7
    (by decide) (by decide) (by decide)

/-- C6 counterexample: with the Scenario B order Shipping and INV0001 at 8,
the round trip Shipping→Returned→Shipping leaves INV0001 at 10 — a net stock
change of +2 across the two transitions, not zero (the re-dispatch leg writes
no movement). -/
theorem roundtrip_not_net_zero :
    sysB.inv.items.map Sku.quantity = [8] ∧
    (update_status (update_status sysB "100000001234" STATUS_RETURNED none 11).2
        "100000001234" STATUS_SHIPPING none 12).2.inv.items.map Sku.quantity =
      [10] := by
  decide

/-- C6 amended: for an order in Shipping with an unchanged item list, the
round trip Shipping→Returned→Shipping nets a stock change of **+qty** per
item: the Returned leg writes one Return movement of +qty per item, and the
Returned→Shipping leg has no stock effect at all (only Ready→Shipping
withdraws). -/
theorem shipping_returned_roundtrip_nets_plus_qty {s : SysState} {txn : String}
    {row0 : OrderRow}
    (hfind : s.store.find? (fun r => r.txn == txn.strip) = some row0)
    (hship : row0.status = STATUS_SHIPPING) (ts₁ ts₂ : Nat)
    (hres : ∀ it ∈ parse_items_from_row s.inv row0,
      (resolve_index s.inv (itemKey it)).isSome)
    (hnd : ((parse_items_from_row s.inv row0).map
      (fun it => resolve_index s.inv (itemKey it))).Nodup) :
    (update_status (update_status s txn STATUS_RETURNED none ts₁).2 txn
        STATUS_SHIPPING none ts₂).2.inv =
      (update_status s txn STATUS_RETURNED none ts₁).2.inv ∧
    (∀ it ∈ parse_items_from_row s.inv row0, ∀ i sku,
      resolve_index s.inv (itemKey it) = some i → s.inv.items[i]? = some sku →
      ∃ sku', (update_status (update_status s txn STATUS_RETURNED none ts₁).2
          txn STATUS_SHIPPING none ts₂).2.inv.items[i]? = some sku' ∧
        sku'.quantity = sku.quantity + it.qty) := by
  have hp : ((stamp_row row0 STATUS_RETURNED none ts₁).txn == txn.strip)
      = true := by
    have h := List.find?_some hfind
    rw [stamp_row_txn]
    exact h
  have hfind1 : ((update_status s txn STATUS_RETURNED none ts₁).2).store.find?
      (fun r => r.txn == txn.strip) =
      some (stamp_row row0 STATUS_RETURNED none ts₁) := by
    rw [update_status_found hfind STATUS_RETURNED none ts₁]
    exact find?_map_update _ _ s.store row0 hfind hp
  have h1c : (update_status (update_status s txn STATUS_RETURNED none ts₁).2 txn
      STATUS_SHIPPING none ts₂).2.inv =
      (update_status s txn STATUS_RETURNED none ts₁).2.inv := by
    rw [update_status_found hfind1 STATUS_SHIPPING none ts₂]
    apply hook_no_stock
    · rw [stamp_row_status]
      intro hcontra
      exact absurd hcontra.1 (by decide)
    · rw [stamp_row_status]
      intro hcontra
      exact absurd hcontra.1 (by decide)
  refine ⟨h1c, ?_⟩
  intro it hit i sku hresit hget
  rw [h1c]
  by_cases hne : parse_items_from_row s.inv row0 = []
  · rw [hne] at hit
    cases hit
  · have hne' : ¬ (parse_items_from_row s.inv
        (stamp_row row0 STATUS_RETURNED none ts₁)).isEmpty = true := by
      rw [parse_items_stamp]
      simp only [List.isEmpty_iff]
      exact hne
    have hhook : adjust_inventory_on_transition
        (stamp_row row0 STATUS_RETURNED none ts₁) row0.status STATUS_RETURNED
        s.inv ts₁ =
        adjust_fold (parse_items_from_row s.inv row0) (fun it => it.qty)
          "Return" row0.txn "SHIPPING->RETURNED" ts₁ s.inv := by
      rw [hship, hook_shipping_returned _ _ _ hne', parse_items_stamp,
        stamp_row_txn]
    obtain ⟨-, hqty, -⟩ :=
      adjust_fold_spec (fun it => it.qty) "Return" row0.txn "SHIPPING->RETURNED"
        ts₁ (parse_items_from_row s.inv row0) s.inv hres
    obtain ⟨sku', hget', -, hq'⟩ := hqty i sku hget
    rw [update_status_found hfind STATUS_RETURNED none ts₁, hhook]
    refine ⟨sku', hget', ?_⟩
    rw [hq', resolve_contrib_of_nodup hnd hit hresit]

/-- C6 witness: the amended round-trip fact at Scenario B — INV0001 ends the
two transitions at its pre-trip quantity plus the item's qty. -/
theorem shipping_returned_roundtrip_witness :
    (update_status (update_status sysB "100000001234" STATUS_RETURNED none 11).2
        "100000001234" STATUS_SHIPPING none 12).2.inv =
      (update_status sysB "100000001234" STATUS_RETURNED none 11).2.inv ∧
    (∀ it ∈ parse_items_from_row sysB.inv orderB, ∀ i sku,
      resolve_index sysB.inv (itemKey it) = some i →
      sysB.inv.items[i]? = some sku →
      ∃ sku', (update_status (update_status sysB "100000001234" STATUS_RETURNED
          none 11).2 "100000001234" STATUS_SHIPPING none 12).2.inv.items[i]? =
          some sku' ∧
        sku'.quantity = sku.quantity + it.qty) :=
  shipping_returned_roundtrip_nets_plus_qty
    (show sysB.store.find?
        (fun r => r.txn == ("100000001234" : String).strip) = some orderB
      by decide)
    (show orderB.status = STATUS_SHIPPING from rfl) 11 12
    (by decide) (by decide)
